import Mathlib

/-!
Verification development for the semantic receipt/transaction search core of a
conversational personal-finance assistant (TypeScript/Express backend).

The embedding is shallow: the relevant server functions
(`cosineSimilarity`, `generateEmbedding`, the `DatabaseStorage` search and
receipt methods, the chat route's account-name resolution and
`semantic_search` dispatch) are translated into executable Lean definitions.

Modelling conventions:
* JavaScript numbers are modelled by `JsNum`: either an exact rational
  (`JsNum.num`), `NaN` (`JsNum.nan`), or the two infinities.  Plain numeric
  fields that the code never makes non-finite (amounts, dates) are `ℚ`/`ℤ`.
* `Math.sqrt` is kept abstract as a parameter `sqrt : ℚ → ℚ`; theorems that
  need it assume only that `sqrt` is positive on positives (true of the real
  square root used at runtime).
* The OpenAI embedding endpoint is a parameter
  `provider : String → Except String (List ℚ)`; `Except.error` models a
  thrown/failed network call, which `generateEmbedding` catches and turns
  into the empty vector, exactly as in the source.
* `Array.prototype.sort(cmp)` (a stable sort in ECMAScript; V8 uses a merge
  sort) and SQL `ORDER BY` are both modelled by the stable `List.mergeSort`
  with the corresponding boolean relation (`cmp a b <= 0` for JS).
* Database reads are passed in as explicit lists of rows.
-/

/-- A JavaScript number: an exact rational, `NaN`, or an infinity. -/
inductive JsNum where
  | nan : JsNum
  | posInf : JsNum
  | negInf : JsNum
  | num : ℚ → JsNum
deriving DecidableEq

/-- JS subtraction `a - b` on `JsNum`. -/
def jsSub : JsNum → JsNum → JsNum
  | JsNum.num a, JsNum.num b => JsNum.num (a - b)
  | JsNum.nan, _ => JsNum.nan
  | _, JsNum.nan => JsNum.nan
  | JsNum.posInf, JsNum.posInf => JsNum.nan
  | JsNum.posInf, JsNum.negInf => JsNum.posInf
  | JsNum.posInf, JsNum.num _ => JsNum.posInf
  | JsNum.negInf, JsNum.negInf => JsNum.nan
  | JsNum.negInf, JsNum.posInf => JsNum.negInf
  | JsNum.negInf, JsNum.num _ => JsNum.negInf
  | JsNum.num _, JsNum.posInf => JsNum.negInf
  | JsNum.num _, JsNum.negInf => JsNum.posInf

/-- JS `Math.abs` on `JsNum`. -/
def jsAbs : JsNum → JsNum
  | JsNum.nan => JsNum.nan
  | JsNum.posInf => JsNum.posInf
  | JsNum.negInf => JsNum.posInf
  | JsNum.num a => JsNum.num |a|

/-- JS comparison `a >= b`; any comparison involving `NaN` is false. -/
def jsGe : JsNum → JsNum → Bool
  | JsNum.nan, _ => false
  | _, JsNum.nan => false
  | JsNum.posInf, _ => true
  | JsNum.negInf, JsNum.negInf => true
  | JsNum.negInf, _ => false
  | JsNum.num _, JsNum.posInf => false
  | JsNum.num _, JsNum.negInf => true
  | JsNum.num a, JsNum.num b => a ≥ b

/-- JS comparison `a > b`; any comparison involving `NaN` is false. -/
def jsGt : JsNum → JsNum → Bool
  | JsNum.nan, _ => false
  | _, JsNum.nan => false
  | JsNum.posInf, JsNum.posInf => false
  | JsNum.posInf, _ => true
  | JsNum.negInf, _ => false
  | JsNum.num _, JsNum.posInf => false
  | JsNum.num _, JsNum.negInf => true
  | JsNum.num a, JsNum.num b => a > b

/-- JS division `a / b` for finite operands: division by zero yields `NaN`
(for `0 / 0`) or a signed infinity.  The source only ever divides finite
numbers, so the remaining cases default to `NaN`. -/
def jsDiv : JsNum → JsNum → JsNum
  | JsNum.num a, JsNum.num b =>
      if b = 0 then
        if a = 0 then JsNum.nan
        else if a > 0 then JsNum.posInf
        else JsNum.negInf
      else JsNum.num (a / b)
  | _, _ => JsNum.nan

/-- Whether a `JsNum` is finite. -/
def JsNum.isFinite : JsNum → Bool
  | JsNum.num _ => true
  | _ => false

/-- How the ECMAScript sort interprets a comparator result `c` when deciding
whether the left element may stay before the right one: `c <= 0`, with a
`NaN` comparator result treated as `0`. -/
def sortKeyLE : JsNum → Bool
  | JsNum.nan => true
  | JsNum.posInf => false
  | JsNum.negInf => true
  | JsNum.num q => q ≤ 0

/-- Dot-style accumulation `Σ a[i] * b[i]` over the common indices, as in the
`for` loop of `cosineSimilarity`. -/
def dotSum (a b : List ℚ) : ℚ :=
  (List.zipWith (fun x y => x * y) a b).sum

/-- Model of `cosineSimilarity(a, b)` from `server/openai.ts`: returns `0` when the
lengths differ, otherwise the dot product divided by the product of the two
Euclidean norms, with JS division semantics (`0 / 0` is `NaN`).
`Math.sqrt` is the abstract parameter `sqrt`. -/
def cosineSimilarity (sqrt : ℚ → ℚ) (a b : List ℚ) : JsNum :=
  if a.length ≠ b.length then JsNum.num 0
  else
    let dotProduct := dotSum a b
    let normA := dotSum a a
    let normB := dotSum b b
    jsDiv (JsNum.num dotProduct) (JsNum.num (sqrt normA * sqrt normB))

/-- Model of `generateEmbedding(text)` from `server/openai.ts`: calls the embedding
provider and returns `[]` when the call fails (the `catch` branch). -/
def generateEmbedding (provider : String → Except String (List ℚ))
    (text : String) : List ℚ :=
  match provider text with
  | Except.ok v => v
  | Except.error _ => []

/-- Whether `needle` occurs at the start of `hay`. -/
def startsWithList (needle hay : List Char) : Bool :=
  match needle, hay with
  | [], _ => true
  | _ :: _, [] => false
  | n :: ns, h :: hs => n = h && startsWithList ns hs

/-- Whether `needle` occurs as a contiguous sublist of `hay`
(JS `String.prototype.includes` / SQL `LIKE %needle%`). -/
def containsList (hay needle : List Char) : Bool :=
  if startsWithList needle hay then true
  else
    match hay with
    | [] => false
    | _ :: hs => containsList hs needle

/-- The characters of a string, lowercased
(JS `toLowerCase` / SQL `LOWER`, applied characterwise). -/
def lowerStr (s : String) : List Char :=
  s.toList.map Char.toLower

/-- A `receipt_items` row (the table is referenced by `server/storage.ts`;
its column set — id, transaction reference, item description, item amount,
optional embedding, creation timestamp — is the one the storage layer
reads).  `createdAt` is nullable, as the JS code guards
`a.createdAt ? ... : 0`. -/
structure ReceiptItem where
  id : String
  transactionId : String
  itemDescription : String
  itemAmount : ℚ
  embedding : Option (List ℚ)
  createdAt : Option ℤ
deriving DecidableEq

/-- A `transactions` row (`shared/schema.ts`): `merchant` and `category`
are nullable, `date` is not. -/
structure Transaction where
  id : String
  accountId : String
  description : String
  amount : ℚ
  category : Option String
  merchant : Option String
  date : ℤ
  embedding : Option (List ℚ)
deriving DecidableEq

/-- An `accounts` row (`shared/schema.ts` plus the embedding column used by
`server/storage.ts`).  `accountType` renders the source column `type`. -/
structure Account where
  id : String
  name : String
  accountType : String
  balance : ℚ
  embedding : Option (List ℚ)
deriving DecidableEq

/-- JS `Math.abs` on an (always finite) amount. -/
def mathAbs (q : ℚ) : ℚ :=
  |q|

/-- Model of `new Date(x.createdAt).getTime()` with the falsy-null guard `x ? ... : 0`
used by the JS sort comparators. -/
def jsDate (createdAt : Option ℤ) : ℤ :=
  createdAt.getD 0

/-- A receipt item together with its computed similarity (the JS code spreads
the row and attaches a `similarity` field). -/
structure ScoredReceiptItem where
  item : ReceiptItem
  similarity : JsNum
deriving DecidableEq

/-- An account together with its computed similarity. -/
structure ScoredAccount where
  account : Account
  similarity : JsNum
deriving DecidableEq

/-- The similarity attached to a receipt-item row:
`item.embedding ? cosineSimilarity(searchEmbedding, item.embedding) : 0`. -/
def itemSimilarity (sqrt : ℚ → ℚ) (searchEmbedding : List ℚ)
    (item : ReceiptItem) : JsNum :=
  match item.embedding with
  | some e => cosineSimilarity sqrt searchEmbedding e
  | none => JsNum.num 0

/-- The similarity attached to an account row. -/
def accountSimilarity (sqrt : ℚ → ℚ) (searchEmbedding : List ℚ)
    (account : Account) : JsNum :=
  match account.embedding with
  | some e => cosineSimilarity sqrt searchEmbedding e
  | none => JsNum.num 0

/-- The product-search sort comparator from
`DatabaseStorage.searchReceiptItemsBySemantic`: similarity difference when it
is significant (`> 0.05`), otherwise most-recent-first by creation date. -/
def itemCompare (a b : ScoredReceiptItem) : JsNum :=
  let similarityDiff := jsSub b.similarity a.similarity
  if jsGt (jsAbs similarityDiff) (JsNum.num (5/100)) then similarityDiff
  else JsNum.num (((jsDate b.item.createdAt - jsDate a.item.createdAt : ℤ) : ℚ))

/-- Relation form of `itemCompare` ("may stay before") used by the sort. -/
def itemCompareLE (a b : ScoredReceiptItem) : Bool :=
  sortKeyLE (itemCompare a b)

/-- The account-search sort comparator
(`(a, b) => b.similarity - a.similarity`). -/
def accCompare (a b : ScoredAccount) : JsNum :=
  jsSub b.similarity a.similarity

/-- Relation form of `accCompare`. -/
def accCompareLE (a b : ScoredAccount) : Bool :=
  sortKeyLE (accCompare a b)

/-- SQL `ORDER BY created_at` ascending (`NULL`s last, as in Postgres). -/
def createdAtAsc (a b : ReceiptItem) : Bool :=
  match a.createdAt, b.createdAt with
  | some x, some y => x ≤ y
  | some _, none => true
  | none, some _ => false
  | none, none => true

/-- SQL `ORDER BY date DESC` on transactions. -/
def dateDescTx (a b : Transaction) : Bool :=
  b.date ≤ a.date

/-- The JS sort comparator `dateB - dateA` (most recent first) used by
`searchReceiptItemsByStore`, as a boolean relation. -/
def storeDateDesc (a b : ReceiptItem) : Bool :=
  jsDate b.createdAt ≤ jsDate a.createdAt

/-- Model of `DatabaseStorage.getReceiptItems(transactionId)`: the line items of one
transaction, ordered by ascending creation time. -/
def getReceiptItems (db : List ReceiptItem) (transactionId : String) :
    List ReceiptItem :=
  (db.filter fun i => i.transactionId = transactionId).mergeSort createdAtAsc

/-- Model of `DatabaseStorage.getTransaction(id)`: first row with the given id, if any. -/
def getTransaction (db : List Transaction) (id : String) : Option Transaction :=
  db.find? fun t => t.id = id

/-- Model of `DatabaseStorage.searchReceiptItemsBySemantic(searchTerm, threshold)`
(default threshold `0.5`): embed the term; bail out to `[]` on an empty
embedding; score every row; keep rows with similarity `>= threshold`; sort
with `itemCompare`. -/
def searchReceiptItemsBySemantic (sqrt : ℚ → ℚ)
    (provider : String → Except String (List ℚ))
    (allItems : List ReceiptItem) (searchTerm : String) (threshold : ℚ) :
    List ScoredReceiptItem :=
  let searchEmbedding := generateEmbedding provider searchTerm
  if searchEmbedding.length = 0 then []
  else
    ((allItems.map fun item =>
        { item := item
          similarity := itemSimilarity sqrt searchEmbedding item
          : ScoredReceiptItem }).filter fun s =>
      jsGe s.similarity (JsNum.num threshold)).mergeSort itemCompareLE

/-- Model of `DatabaseStorage.searchAccountsBySemantic(searchTerm, threshold)`
(default threshold `0.6`; the account-resolution caller passes `0.65`):
same shape as the item search but sorted by similarity only. -/
def searchAccountsBySemantic (sqrt : ℚ → ℚ)
    (provider : String → Except String (List ℚ))
    (allAccounts : List Account) (searchTerm : String) (threshold : ℚ) :
    List ScoredAccount :=
  let searchEmbedding := generateEmbedding provider searchTerm
  if searchEmbedding.length = 0 then []
  else
    ((allAccounts.map fun account =>
        { account := account
          similarity := accountSimilarity sqrt searchEmbedding account
          : ScoredAccount }).filter fun s =>
      jsGe s.similarity (JsNum.num threshold)).mergeSort accCompareLE

/-- Whether a transaction's merchant matches the search term:
`LOWER(merchant) LIKE LOWER('%term%')`; a `NULL` merchant never matches. -/
def merchantMatches (searchTerm : String) (t : Transaction) : Bool :=
  match t.merchant with
  | some m => containsList (lowerStr m) (lowerStr searchTerm)
  | none => false

/-- Model of `DatabaseStorage.searchTransactionsBySemantic(searchTerm)`: despite its
name, a case-insensitive merchant substring match, ordered by descending
date, limited to 20 rows. -/
def searchTransactionsBySemantic (allTransactions : List Transaction)
    (searchTerm : String) : List Transaction :=
  ((allTransactions.filter fun t => merchantMatches searchTerm t).mergeSort
    dateDescTx).take 20

/-- Model of `DatabaseStorage.searchReceiptItemsByStore(searchTerm)` (its `threshold`
parameter is unused by the source): the receipt items of the matched store
transactions, most recent first. -/
def searchReceiptItemsByStore (allItems : List ReceiptItem)
    (allTransactions : List Transaction) (searchTerm : String) :
    List ReceiptItem :=
  let storeTransactions := searchTransactionsBySemantic allTransactions searchTerm
  if storeTransactions.isEmpty then []
  else
    (allItems.filter fun i =>
      storeTransactions.any fun t => t.id = i.transactionId).mergeSort
      storeDateDesc

/-- Model of `DatabaseStorage.getLatestReceiptFromStore(searchTerm)` (its `threshold`
parameter is unused by the source): the receipt of the most recent matched
transaction, ordered by ascending creation time. -/
def getLatestReceiptFromStore (allItems : List ReceiptItem)
    (allTransactions : List Transaction) (searchTerm : String) :
    List ReceiptItem :=
  let storeTransactions := searchTransactionsBySemantic allTransactions searchTerm
  match storeTransactions with
  | [] => []
  | latestTransaction :: _ => getReceiptItems allItems latestTransaction.id

/-- The `searchType` hint of the structured query descriptor. -/
inductive SearchType where
  | product : SearchType
  | store : SearchType
deriving DecidableEq

/-- The `queryType` discriminant of the structured query descriptor. -/
inductive QueryType where
  | transactions : QueryType
  | budget : QueryType
  | goals : QueryType
  | analysis : QueryType
  | general : QueryType
  | semantic_search : QueryType
  | latest_receipt : QueryType
deriving DecidableEq

/-- The optional parameters of a parsed query (`FinancialQuery.parameters`
in `server/openai.ts`); fields the router dispatch does not read are
omitted. -/
structure QueryParameters where
  searchTerm : Option String
  isLatest : Option Bool
  searchType : Option SearchType
  accountName : Option String
deriving DecidableEq

/-- A structured query descriptor as returned by the upstream NLP parser
(`FinancialQuery` in `server/openai.ts`). -/
structure FinancialQuery where
  intent : String
  parameters : QueryParameters
  queryType : QueryType
deriving DecidableEq

/-- The database state read by the search core. -/
structure Database where
  accounts : List Account
  transactions : List Transaction
  receiptItems : List ReceiptItem

/-- The shape of `responseData` produced by the chat route's dispatch
`switch` for the search-related query types. -/
inductive RouteResult where
  | storeResults : List Transaction → RouteResult
  | productResults : List ScoredReceiptItem → RouteResult
  | receiptResults : List ReceiptItem → RouteResult
  | emptyResults : RouteResult
  | otherQuery : RouteResult
deriving DecidableEq

/-- Whether a dispatch outcome is a product (receipt-item) search. -/
def RouteResult.isProductSearch : RouteResult → Bool
  | RouteResult.productResults _ => true
  | _ => false

/-- The `isLatest` truncation of the dispatch:
`if (query.parameters.isLatest && responseData.length > 0) responseData = [responseData[0]]`. -/
def truncateLatest {T : Type} (query : FinancialQuery) (responseData : List T) :
    List T :=
  if query.parameters.isLatest.getD false && decide (0 < responseData.length)
    then responseData.take 1 else responseData

/-- The `semantic_search` / `latest_receipt` dispatch of the chat route
(`registerRoutes` in the server routes): `searchType === 'store'` selects the
merchant substring search, anything else the receipt-item search with the
default threshold `0.5`; a truthy `isLatest` truncates a non-empty result to
its first element. -/
def routeQuery (sqrt : ℚ → ℚ) (provider : String → Except String (List ℚ))
    (db : Database) (query : FinancialQuery) : RouteResult :=
  match query.queryType with
  | QueryType.semantic_search =>
    match query.parameters.searchTerm with
    | some searchTerm =>
      if query.parameters.searchType = some SearchType.store then
        RouteResult.storeResults
          (truncateLatest query
            (searchTransactionsBySemantic db.transactions searchTerm))
      else
        RouteResult.productResults
          (truncateLatest query
            (searchReceiptItemsBySemantic sqrt provider db.receiptItems searchTerm (1/2)))
    | none => RouteResult.emptyResults
  | QueryType.latest_receipt =>
    match query.parameters.searchTerm with
    | some searchTerm =>
        RouteResult.receiptResults
          (getLatestReceiptFromStore db.receiptItems db.transactions searchTerm)
    | none => RouteResult.emptyResults
  | _ => RouteResult.otherQuery

/-- The route as seen from the user's message: the external parser produces
the descriptor, the router dispatches on it. -/
def routeUserMessage (parseQuery : String → FinancialQuery) (sqrt : ℚ → ℚ)
    (provider : String → Except String (List ℚ)) (db : Database)
    (message : String) : RouteResult :=
  routeQuery sqrt provider db (parseQuery message)

/-- The `allMatches` computation of the account-name resolution block in the
chat route: exact lowercase matches first; otherwise a unique substring
match; otherwise semantic search at threshold `0.65`, accepting a unique
semantic hit, or the top hit when it leads the runner-up by at least `0.15`,
and otherwise falling back to the substring matches (or the top three
semantic hits when there are none). -/
def resolveAccountMatches (sqrt : ℚ → ℚ)
    (provider : String → Except String (List ℚ))
    (accounts : List Account) (accountName : String) : List Account :=
  let exactMatches := accounts.filter fun account =>
    lowerStr account.name = lowerStr accountName
  let containsMatches := accounts.filter fun account =>
    containsList (lowerStr account.name) (lowerStr accountName)
  if 0 < exactMatches.length then exactMatches
  else if containsMatches.length = 1 then containsMatches
  else
    match searchAccountsBySemantic sqrt provider accounts
        accountName.toLower (65/100) with
    | [] => containsMatches
    | [s] => [s.account]
    | s0 :: s1 :: rest =>
      if jsGe (jsSub s0.similarity s1.similarity) (JsNum.num (15/100))
        then [s0.account]
      else if 0 < containsMatches.length then containsMatches
      else ((s0 :: s1 :: rest).take 3).map fun s => s.account

/-- The outcome of account-name resolution as surfaced by the route: a
unique match is used; several matches produce a clarification request
listing them; no match produces a not-found reply. -/
inductive AccountResolution where
  | resolved : Account → AccountResolution
  | ambiguous : List Account → AccountResolution
  | notFound : AccountResolution
deriving DecidableEq

/-- Account-name resolution end to end (`allMatches.length` 1 / many / 0). -/
def resolveAccount (sqrt : ℚ → ℚ)
    (provider : String → Except String (List ℚ))
    (accounts : List Account) (accountName : String) : AccountResolution :=
  match resolveAccountMatches sqrt provider accounts accountName with
  | [] => AccountResolution.notFound
  | [a] => AccountResolution.resolved a
  | a :: b :: rest => AccountResolution.ambiguous (a :: b :: rest)

/-- The reconstructed receipt assembled by the latest-purchase branch of the
chat route: the transaction, its line items in insertion order, the total as
the sum of absolute line-item amounts, and the id of the matched item
(rendered in bold by the formatter). -/
structure ReconstructedReceipt where
  transaction : Transaction
  items : List ReceiptItem
  total : ℚ
  highlightedId : String
deriving DecidableEq

/-- The user-facing message of the latest-purchase NotFound branch. -/
def notFoundMessage (searchTerm : String) : String :=
  "Could not find transaction details for the last purchase of \"" ++
    searchTerm ++ "\"."

/-- The latest-purchase receipt reconstruction of the chat route: fetch the
full receipt and the transaction of the matched item; a missing transaction
yields the user-facing NotFound message (`Except.error`), otherwise the
receipt with its independently computed total. -/
def reconstructLatestPurchase (allItems : List ReceiptItem)
    (allTransactions : List Transaction) (searchTerm : String)
    (item : ReceiptItem) : Except String ReconstructedReceipt :=
  let fullReceipt := getReceiptItems allItems item.transactionId
  match getTransaction allTransactions item.transactionId with
  | none => Except.error (notFoundMessage searchTerm)
  | some transaction =>
      Except.ok
        { transaction := transaction
          items := fullReceipt
          total := (fullReceipt.map fun receiptItem => mathAbs receiptItem.itemAmount).sum
          highlightedId := item.id }
/-- The adjacent-pair order property the specification states for the
Matcher output: a similarity drop of more than `0.05`, or a gap of at most
`0.05` together with a non-increasing creation date. -/
def claimOrder (a b : ScoredReceiptItem) : Bool :=
  match a.similarity, b.similarity with
  | JsNum.num qa, JsNum.num qb =>
      decide (qa - qb > 5/100) ||
        (decide (qa - qb ≤ 5/100) &&
          decide (jsDate b.item.createdAt ≤ jsDate a.item.createdAt))
  | _, _ => false

/-- Example provider: every text embeds to the one-dimensional vector `[1]`. -/
def exProvider : String → Except String (List ℚ) :=
  fun _ => Except.ok [1]

/-- Example provider modelling a thrown embedding call. -/
def failProvider : String → Except String (List ℚ) :=
  fun _ => Except.error "network failure"

/-- Example provider returning an empty vector. -/
def emptyProvider : String → Except String (List ℚ) :=
  fun _ => Except.ok []

/-- Example line item: bananas, bought earlier. -/
def exItemBananas : ReceiptItem :=
  { id := "i1", transactionId := "t1", itemDescription := "Organic Bananas"
    itemAmount := 499/100, embedding := some [1], createdAt := some 5 }

/-- Example line item: banana chips, bought later. -/
def exItemChips : ReceiptItem :=
  { id := "i2", transactionId := "t2", itemDescription := "Banana Chips"
    itemAmount := 1299/100, embedding := some [1], createdAt := some 9 }

/-- Example line item without a stored embedding. -/
def exItemNoEmbedding : ReceiptItem :=
  { id := "i3", transactionId := "t1", itemDescription := "Mystery"
    itemAmount := 350/100, embedding := none, createdAt := some 7 }

/-- Example receipt rows of one transaction, priced 4.99, 12.99 and 3.50. -/
def exReceiptRows : List ReceiptItem :=
  [ { id := "r1", transactionId := "t1", itemDescription := "Cheese"
      itemAmount := 499/100, embedding := none, createdAt := some 1 },
    { id := "r2", transactionId := "t1", itemDescription := "Steak"
      itemAmount := 1299/100, embedding := none, createdAt := some 2 },
    { id := "r3", transactionId := "t1", itemDescription := "Bread"
      itemAmount := 350/100, embedding := none, createdAt := some 3 } ]

/-- Example transaction behind `exReceiptRows`. -/
def exTx : Transaction :=
  { id := "t1", accountId := "a1", description := "Costco run"
    amount := -2148/100, category := some "groceries", merchant := some "Costco"
    date := 100, embedding := none }

/-- Twenty-one distinct transactions at the same merchant, most recent last. -/
def manyTx : List Transaction :=
  (List.range 21).map fun n =>
    { id := toString n, accountId := "a1", description := "visit"
      amount := -1, category := none, merchant := some "Costco"
      date := (n : ℤ), embedding := none }

/-- The temporal-product phrase of the router-override policy. -/
def whenDidIBuyMilk : String :=
  "When did I last buy milk?"

/-- A parser output the upstream probabilistic parser may produce for
`whenDidIBuyMilk`: the right term and `isLatest`, but a misclassified
`searchType = store`. -/
def storeParsedQuery : FinancialQuery :=
  { intent := whenDidIBuyMilk
    parameters :=
      { searchTerm := some "milk", isLatest := some true
        searchType := some SearchType.store, accountName := none }
    queryType := QueryType.semantic_search }

/-- A parser that returns `storeParsedQuery` for every message. -/
def storeParser : String → FinancialQuery :=
  fun _ => storeParsedQuery

/-- An example database with one merchant-matching transaction. -/
def exDb : Database :=
  { accounts := [], transactions := [exTx], receiptItems := exReceiptRows }

/-- Two example accounts whose names both contain "angelica". -/
def exAccounts : List Account :=
  [ { id := "acc1", name := "Angelica Checking", accountType := "budget"
      balance := 100, embedding := some [1] },
    { id := "acc2", name := "Angelica Savings", accountType := "savings"
      balance := 200, embedding := some [1] } ]

/-- One example account named "Vacation Fund". -/
def exVacationAccount : Account :=
  { id := "acc3", name := "Vacation Fund", accountType := "savings"
    balance := 300, embedding := some [1] }

/-- A well-classified product-search descriptor for "milk". -/
def productParsedQuery : FinancialQuery :=
  { intent := "How much did I spend on milk?"
    parameters :=
      { searchTerm := some "milk", isLatest := none
        searchType := some SearchType.product, accountName := none }
    queryType := QueryType.semantic_search }

/-- Helper: the head of a merge comes from one of the two inputs. -/
theorem head?_merge_or {α : Type _} (le : α → α → Bool) (l₁ l₂ : List α) (h : α)
    (hh : (List.merge l₁ l₂ le).head? = some h) :
    l₁.head? = some h ∨ l₂.head? = some h := by
  match l₁, l₂ with
  | [], l₂ => right; simpa using hh
  | x :: xs, [] => left; simpa using hh
  | x :: xs, y :: ys =>
    rw [List.cons_merge_cons] at hh
    by_cases hxy : le x y
    · rw [if_pos hxy] at hh
      left; simpa using hh
    · rw [if_neg hxy] at hh
      right; simpa using hh

/-- Helper: merging two lists whose adjacent pairs satisfy a total boolean
relation yields a list whose adjacent pairs satisfy it, with no
transitivity assumption (the relation of the JS sort comparator is not
transitive). -/
theorem chain'_merge {α : Type _} {le : α → α → Bool}
    (total : ∀ a b, le a b || le b a) :
    ∀ (l₁ l₂ : List α), List.Chain' (fun a b => le a b = true) l₁ →
      List.Chain' (fun a b => le a b = true) l₂ →
      List.Chain' (fun a b => le a b = true) (List.merge l₁ l₂ le)
  | [], l₂, _, h₂ => by simpa using h₂
  | x :: xs, [], h₁, _ => by simpa using h₁
  | x :: xs, y :: ys, h₁, h₂ => by
    rw [List.cons_merge_cons]
    by_cases hxy : le x y
    · rw [if_pos hxy]
      refine List.chain'_cons'.2 ⟨?_, chain'_merge total xs (y :: ys) (List.chain'_cons'.1 h₁).2 h₂⟩
      intro z hz
      rcases head?_merge_or le xs (y :: ys) z hz with h | h
      · exact (List.chain'_cons'.1 h₁).1 z h
      · simp only [List.head?_cons, Option.some.injEq] at h
        subst h; exact hxy
    · rw [if_neg hxy]
      have hyx : le y x := by
        rcases Bool.or_eq_true_iff.1 (total x y) with h | h
        · exact absurd h hxy
        · exact h
      refine List.chain'_cons'.2 ⟨?_, chain'_merge total (x :: xs) ys h₁ (List.chain'_cons'.1 h₂).2⟩
      intro z hz
      rcases head?_merge_or le (x :: xs) ys z hz with h | h
      · simp only [List.head?_cons, Option.some.injEq] at h
        subst h; exact hyx
      · exact (List.chain'_cons'.1 h₂).1 z h
termination_by l₁ l₂ => l₁.length + l₂.length

/-- Helper: `mergeSort` with a total boolean relation produces a list whose
adjacent pairs satisfy the relation, with no transitivity assumption. -/
theorem chain'_mergeSort {α : Type _} {le : α → α → Bool}
    (total : ∀ a b, le a b || le b a) :
    ∀ (l : List α), List.Chain' (fun a b => le a b = true) (l.mergeSort le)
  | [] => by simp
  | [a] => by simp
  | a :: b :: xs => by
    have h1 : (List.splitInTwo ⟨a :: b :: xs, rfl⟩).1.1.length < xs.length + 1 + 1 := by
      simp [List.splitInTwo_fst]; omega
    have h2 : (List.splitInTwo ⟨a :: b :: xs, rfl⟩).2.1.length < xs.length + 1 + 1 := by
      simp [List.splitInTwo_snd]; omega
    rw [List.mergeSort]
    exact chain'_merge total _ _ (chain'_mergeSort total _) (chain'_mergeSort total _)
termination_by l => l.length

/-- Helper: weaken the relation of a `Chain'` using membership of both
endpoints in the list. -/
theorem chain'_imp_mem {α : Type _} {R S : α → α → Prop} :
    ∀ {l : List α}, (∀ a ∈ l, ∀ b ∈ l, R a b → S a b) →
      List.Chain' R l → List.Chain' S l
  | [], _, _ => List.chain'_nil
  | [_], _, _ => List.chain'_singleton _
  | a :: b :: l, himp, h => by
    rw [List.chain'_cons] at h ⊢
    refine ⟨himp a (by simp) b (by simp) h.1, ?_⟩
    refine chain'_imp_mem (fun x hx y hy hr => himp x ?_ y ?_ hr) h.2
    · exact List.mem_cons_of_mem _ hx
    · exact List.mem_cons_of_mem _ hy
/-- Helper: a sum of squares is nonnegative. -/
theorem dotSum_self_nonneg : ∀ (a : List ℚ), 0 ≤ dotSum a a
  | [] => le_refl 0
  | x :: xs => by
    have hx : 0 ≤ x * x := mul_self_nonneg x
    have hxs := dotSum_self_nonneg xs
    simp only [dotSum, List.zipWith_cons_cons, List.sum_cons] at *
    exact add_nonneg hx hxs

/-- Helper: a vanishing sum of squares means every entry vanishes. -/
theorem eq_zero_of_dotSum_self_eq_zero : ∀ {a : List ℚ}, dotSum a a = 0 →
    ∀ x ∈ a, x = 0
  | [], _, x, hx => absurd hx (List.not_mem_nil x)
  | y :: ys, h, x, hx => by
    have hy : 0 ≤ y * y := mul_self_nonneg y
    have hys := dotSum_self_nonneg ys
    simp only [dotSum] at hys
    simp only [dotSum, List.zipWith_cons_cons, List.sum_cons] at h
    have hy0 : y * y = 0 := by linarith
    have hys0 : dotSum ys ys = 0 := by
      simp only [dotSum]; linarith
    rcases List.mem_cons.1 hx with rfl | hx
    · nlinarith [hy0]
    · exact eq_zero_of_dotSum_self_eq_zero hys0 x hx

/-- Helper: a dot product with an all-zero left vector vanishes. -/
theorem dotSum_eq_zero_of_left_zero : ∀ {a : List ℚ}, (∀ x ∈ a, x = 0) →
    ∀ (b : List ℚ), dotSum a b = 0
  | [], _, b => by cases b <;> simp [dotSum]
  | x :: xs, h, b => by
    match b with
    | [] => simp [dotSum]
    | y :: ys =>
      have hx : x = 0 := h x (by simp)
      have hxs : ∀ z ∈ xs, z = 0 := fun z hz => h z (List.mem_cons_of_mem _ hz)
      simp only [dotSum, List.zipWith_cons_cons, List.sum_cons, hx, zero_mul, zero_add]
      exact dotSum_eq_zero_of_left_zero hxs ys

/-- Helper: a dot product with an all-zero right vector vanishes. -/
theorem dotSum_eq_zero_of_right_zero : ∀ (a : List ℚ) {b : List ℚ},
    (∀ x ∈ b, x = 0) → dotSum a b = 0
  | [], b, _ => by cases b <;> simp [dotSum]
  | x :: xs, b, h => by
    match b with
    | [] => simp [dotSum]
    | y :: ys =>
      have hy : y = 0 := h y (by simp)
      have hys : ∀ z ∈ ys, z = 0 := fun z hz => h z (List.mem_cons_of_mem _ hz)
      simp only [dotSum, List.zipWith_cons_cons, List.sum_cons, hy, mul_zero, zero_add]
      exact dotSum_eq_zero_of_right_zero xs hys

/-- Helper: under a square root that is positive on positives,
`cosineSimilarity` never produces an infinity (a zero denominator forces a
zero numerator, hence `NaN`). -/
theorem cosineSimilarity_ne_inf (sqrt : ℚ → ℚ)
    (hsqrt : ∀ q : ℚ, 0 < q → 0 < sqrt q) (a b : List ℚ) :
    cosineSimilarity sqrt a b ≠ JsNum.posInf ∧
      cosineSimilarity sqrt a b ≠ JsNum.negInf := by
  unfold cosineSimilarity
  by_cases hlen : a.length ≠ b.length
  · simp [hlen]
  · simp only [hlen, if_false]
    unfold jsDiv
    by_cases hd0 : sqrt (dotSum a a) * sqrt (dotSum b b) = 0
    · have hzero : dotSum a b = 0 := by
        rcases mul_eq_zero.1 hd0 with h | h
        · have ha : dotSum a a = 0 := by
            by_contra hne
            have hpos : 0 < dotSum a a :=
              lt_of_le_of_ne (dotSum_self_nonneg a) (Ne.symm hne)
            exact absurd h (ne_of_gt (hsqrt _ hpos))
          exact dotSum_eq_zero_of_left_zero (eq_zero_of_dotSum_self_eq_zero ha) b
        · have hb : dotSum b b = 0 := by
            by_contra hne
            have hpos : 0 < dotSum b b :=
              lt_of_le_of_ne (dotSum_self_nonneg b) (Ne.symm hne)
            exact absurd h (ne_of_gt (hsqrt _ hpos))
          exact dotSum_eq_zero_of_right_zero a (eq_zero_of_dotSum_self_eq_zero hb)
      simp [hd0, hzero]
    · simp [hd0]

/-- Helper: the product-search sort relation is total (though not
transitive, because of the small-gap date tie-break). -/
theorem itemCompareLE_total (a b : ScoredReceiptItem) :
    itemCompareLE a b || itemCompareLE b a := by
  unfold itemCompareLE itemCompare
  rcases a with ⟨ia, sa⟩
  rcases b with ⟨ib, sb⟩
  have hdate : ∀ x y : ℤ, ((x - y : ℤ) : ℚ) ≤ 0 ∨ ((y - x : ℤ) : ℚ) ≤ 0 := by
    intro x y
    rcases le_total x y with h | h
    · left; exact_mod_cast sub_nonpos.2 h
    · right; exact_mod_cast sub_nonpos.2 h
  rcases sa with _ | _ | _ | qa <;> rcases sb with _ | _ | _ | qb <;>
      simp only [jsSub, jsAbs, jsGt, sortKeyLE] <;>
    first
      | rfl
      | (simp only [Bool.false_eq_true, if_false, Bool.or_eq_true, decide_eq_true_eq]
         exact hdate _ _)
      | (by_cases hc : (5/100 : ℚ) < |qb - qa|
         · have hc2 : (5/100 : ℚ) < |qa - qb| := by rwa [abs_sub_comm]
           simp only [gt_iff_lt, hc, hc2, decide_eq_true_eq, if_true, Bool.or_eq_true]
           rcases le_total qa qb with h | h
           · right; linarith
           · left; linarith
         · have hc2 : ¬ (5/100 : ℚ) < |qa - qb| := by rwa [abs_sub_comm]
           simp only [gt_iff_lt, hc, hc2, decide_eq_true_eq, Bool.false_eq_true, if_false,
             Bool.or_eq_true]
           exact hdate _ _)

/-- Helper: every element of the product-search output comes from the scored
collection and passes the threshold test. -/
theorem mem_searchReceiptItems {sqrt : ℚ → ℚ}
    {provider : String → Except String (List ℚ)} {allItems : List ReceiptItem}
    {searchTerm : String} {threshold : ℚ} {s : ScoredReceiptItem}
    (hs : s ∈ searchReceiptItemsBySemantic sqrt provider allItems searchTerm threshold) :
    s.item ∈ allItems ∧
      s.similarity = itemSimilarity sqrt (generateEmbedding provider searchTerm) s.item ∧
      jsGe s.similarity (JsNum.num threshold) = true := by
  unfold searchReceiptItemsBySemantic at hs
  by_cases hlen : (generateEmbedding provider searchTerm).length = 0
  · rw [if_pos hlen] at hs
    exact absurd hs (List.not_mem_nil s)
  · rw [if_neg hlen, List.mem_mergeSort] at hs
    have hpass := List.of_mem_filter hs
    have hmem := List.mem_of_mem_filter hs
    rcases List.mem_map.1 hmem with ⟨item, hitem, rfl⟩
    exact ⟨hitem, rfl, hpass⟩

/-- Helper: under a positive square root, every element of the
product-search output has a finite similarity (the filter removes `NaN`,
and infinities are unreachable). -/
theorem searchReceiptItems_finite {sqrt : ℚ → ℚ}
    {provider : String → Except String (List ℚ)} {allItems : List ReceiptItem}
    {searchTerm : String} {threshold : ℚ}
    (hsqrt : ∀ q : ℚ, 0 < q → 0 < sqrt q) {s : ScoredReceiptItem}
    (hs : s ∈ searchReceiptItemsBySemantic sqrt provider allItems searchTerm threshold) :
    s.similarity.isFinite = true := by
  obtain ⟨-, hsim, hge⟩ := mem_searchReceiptItems hs
  rcases hemb : s.item.embedding with _ | e
  · simp only [itemSimilarity, hemb] at hsim
    rw [hsim]; rfl
  · simp only [itemSimilarity, hemb] at hsim
    have hne := cosineSimilarity_ne_inf sqrt hsqrt
      (generateEmbedding provider searchTerm) e
    rcases hcs : cosineSimilarity sqrt (generateEmbedding provider searchTerm) e with
      _ | _ | _ | q
    · rw [hsim, hcs] at hge
      exact absurd hge (by simp [jsGe])
    · exact absurd hcs hne.1
    · exact absurd hcs hne.2
    · rw [hsim, hcs]; rfl

/-- Claim C4: every row returned by the semantic item Matcher has computed
similarity at least the threshold; a row with no stored embedding gets
similarity `0` and is excluded whenever the threshold is positive; the
router's product search uses the default threshold `0.5`; an empty
collection, or an all-below-threshold collection, yields an empty result
rather than an error. -/
theorem claim_C4_matcher_threshold
    (sqrt : ℚ → ℚ) (provider : String → Except String (List ℚ))
    (allItems : List ReceiptItem) (searchTerm : String) (threshold : ℚ) :
    (∀ s ∈ searchReceiptItemsBySemantic sqrt provider allItems searchTerm threshold,
        jsGe s.similarity (JsNum.num threshold) = true) ∧
    (0 < threshold →
      ∀ s ∈ searchReceiptItemsBySemantic sqrt provider allItems searchTerm threshold,
        s.item.embedding ≠ none) ∧
    (searchReceiptItemsBySemantic sqrt provider [] searchTerm threshold = []) ∧
    ((∀ item ∈ allItems,
        jsGe (itemSimilarity sqrt (generateEmbedding provider searchTerm) item)
          (JsNum.num threshold) = false) →
      searchReceiptItemsBySemantic sqrt provider allItems searchTerm threshold = []) ∧
    (∀ (db : Database) (query : FinancialQuery),
      query.queryType = QueryType.semantic_search →
      query.parameters.searchTerm = some searchTerm →
      query.parameters.searchType ≠ some SearchType.store →
      query.parameters.isLatest.getD false = false →
      routeQuery sqrt provider db query =
        RouteResult.productResults
          (searchReceiptItemsBySemantic sqrt provider db.receiptItems searchTerm (1/2))) := by
  refine ⟨?_, ?_, ?_, ?_, ?_⟩
  · intro s hs
    exact (mem_searchReceiptItems hs).2.2
  · intro hpos s hs hnone
    obtain ⟨-, hsim, hge⟩ := mem_searchReceiptItems hs
    rw [itemSimilarity, hnone] at hsim
    rw [hsim] at hge
    simp only [jsGe, ge_iff_le, decide_eq_true_eq] at hge
    linarith
  · simp [searchReceiptItemsBySemantic]
  · intro hall
    simp only [searchReceiptItemsBySemantic]
    by_cases hlen : (generateEmbedding provider searchTerm).length = 0
    · rw [if_pos hlen]
    · rw [if_neg hlen]
      have hnil : (allItems.map fun item =>
          { item := item
            similarity := itemSimilarity sqrt (generateEmbedding provider searchTerm) item
            : ScoredReceiptItem }).filter
            (fun s => jsGe s.similarity (JsNum.num threshold)) = [] := by
        rw [List.filter_eq_nil_iff]
        intro s hsmem
        rcases List.mem_map.1 hsmem with ⟨item, hitem, rfl⟩
        simp only [hall item hitem, Bool.false_eq_true, not_false_eq_true]
      rw [hnil, List.mergeSort_nil]
  · intro db query h1 h2 h3 h4
    simp only [routeQuery, h1, h2]
    rw [if_neg h3]
    simp [truncateLatest, h4]

/-- Claim C5: when the embedding provider fails (modelled by `Except.error`,
which `generateEmbedding` catches) or returns an empty vector, the Matcher
returns an empty result list instead of propagating an exception. -/
theorem claim_C5_provider_failure
    (sqrt : ℚ → ℚ) (provider : String → Except String (List ℚ))
    (allItems : List ReceiptItem) (searchTerm : String) (threshold : ℚ) :
    (∀ e, provider searchTerm = Except.error e →
      searchReceiptItemsBySemantic sqrt provider allItems searchTerm threshold = []) ∧
    (provider searchTerm = Except.ok [] →
      searchReceiptItemsBySemantic sqrt provider allItems searchTerm threshold = []) := by
  constructor
  · intro e he
    unfold searchReceiptItemsBySemantic generateEmbedding
    rw [he]
    simp
  · intro he
    unfold searchReceiptItemsBySemantic generateEmbedding
    rw [he]
    simp

/-- Witness for claim C5 at the scenario of the specification: the provider
fails (or returns `[]`) for the term "coffee" and the Matcher returns `[]`. -/
theorem claim_C5_witness :
    searchReceiptItemsBySemantic (fun q => q) failProvider
        [exItemBananas, exItemChips] "coffee" (1/2) = [] ∧
      searchReceiptItemsBySemantic (fun q => q) emptyProvider
        [exItemBananas, exItemChips] "coffee" (1/2) = [] :=
  ⟨(claim_C5_provider_failure (fun q => q) failProvider
      [exItemBananas, exItemChips] "coffee" (1/2)).1 "network failure" rfl,
    (claim_C5_provider_failure (fun q => q) emptyProvider
      [exItemBananas, exItemChips] "coffee" (1/2)).2 rfl⟩

/-- Claim C9: `cosineSimilarity` returns exactly `0` on vectors of unequal
length; a zero query/row vector makes the formula `NaN`; and (under a square
root positive on positives, as `Math.sqrt` is) every row in the Matcher's
returned — and therefore sorted — list has a finite similarity, so `NaN` is
never propagated into the sort. -/
theorem claim_C9_no_nonfinite
    (sqrt : ℚ → ℚ) (provider : String → Except String (List ℚ))
    (allItems : List ReceiptItem) (searchTerm : String) (threshold : ℚ)
    (hsqrt : ∀ q : ℚ, 0 < q → 0 < sqrt q) (hzero : sqrt 0 = 0) :
    (∀ a b : List ℚ, a.length ≠ b.length → cosineSimilarity sqrt a b = JsNum.num 0) ∧
    (∀ n : ℕ, cosineSimilarity sqrt (List.replicate n 0) (List.replicate n 0) =
      JsNum.nan) ∧
    (∀ s ∈ searchReceiptItemsBySemantic sqrt provider allItems searchTerm threshold,
        s.similarity.isFinite = true) := by
  refine ⟨?_, ?_, ?_⟩
  · intro a b hlen
    unfold cosineSimilarity
    rw [if_pos hlen]
  · intro n
    have hall : ∀ x ∈ List.replicate n (0 : ℚ), x = 0 := fun x hx =>
      List.eq_of_mem_replicate hx
    have hdot : dotSum (List.replicate n 0) (List.replicate n 0) = 0 :=
      dotSum_eq_zero_of_left_zero hall _
    unfold cosineSimilarity
    rw [if_neg (by simp)]
    simp [hdot, hzero, jsDiv]
  · intro s hs
    exact searchReceiptItems_finite hsqrt hs

/-- Witness for claim C9: with the identity as square root, a length
mismatch gives similarity exactly `0`, the zero vector gives `NaN`, and a
concrete search returns only finite similarities. -/
theorem claim_C9_witness :
    cosineSimilarity (fun q => q) [1] [1, 2] = JsNum.num 0 ∧
      cosineSimilarity (fun q => q) (List.replicate 2 0) (List.replicate 2 0) =
        JsNum.nan ∧
      ∀ s ∈ searchReceiptItemsBySemantic (fun q => q) exProvider
          [exItemBananas, exItemNoEmbedding] "bananas" (1/2),
        s.similarity.isFinite = true := by
  obtain ⟨h1, h2, h3⟩ := claim_C9_no_nonfinite (fun q => q) exProvider
    [exItemBananas, exItemNoEmbedding] "bananas" (1/2)
    (fun q hq => hq) rfl
  exact ⟨h1 [1] [1, 2] (by decide), h2 2, h3⟩

/-- Helper: a finite `JsNum` is a rational. -/
theorem JsNum.exists_num_of_isFinite {x : JsNum} (h : x.isFinite = true) :
    ∃ q, x = JsNum.num q := by
  cases x with
  | num q => exact ⟨q, rfl⟩
  | nan => exact absurd h (by decide)
  | posInf => exact absurd h (by decide)
  | negInf => exact absurd h (by decide)

/-- Claim C3: the Matcher output is never unsorted — for any two adjacent
results, either the similarity drops by more than `0.05`, or it drops by at
most `0.05` and the creation date is non-increasing (`claimOrder`). -/
theorem claim_C3_matcher_order
    (sqrt : ℚ → ℚ) (provider : String → Except String (List ℚ))
    (allItems : List ReceiptItem) (searchTerm : String) (threshold : ℚ)
    (hsqrt : ∀ q : ℚ, 0 < q → 0 < sqrt q) :
    List.Chain' (fun a b => claimOrder a b = true)
      (searchReceiptItemsBySemantic sqrt provider allItems searchTerm threshold) := by
  have hchain : List.Chain' (fun a b => itemCompareLE a b = true)
      (searchReceiptItemsBySemantic sqrt provider allItems searchTerm threshold) := by
    unfold searchReceiptItemsBySemantic
    by_cases hlen : (generateEmbedding provider searchTerm).length = 0
    · rw [if_pos hlen]
      exact List.chain'_nil
    · rw [if_neg hlen]
      exact chain'_mergeSort itemCompareLE_total _
  refine chain'_imp_mem ?_ hchain
  intro a ha b hb hle
  obtain ⟨qa, hqa⟩ := JsNum.exists_num_of_isFinite (searchReceiptItems_finite hsqrt ha)
  obtain ⟨qb, hqb⟩ := JsNum.exists_num_of_isFinite (searchReceiptItems_finite hsqrt hb)
  unfold itemCompareLE itemCompare at hle
  rw [hqa, hqb] at hle
  simp only [jsSub, jsAbs, jsGt] at hle
  unfold claimOrder
  rw [hqa, hqb]
  by_cases hc : (5/100 : ℚ) < |qb - qa|
  · rw [if_pos (by simpa using hc)] at hle
    simp only [sortKeyLE, decide_eq_true_eq] at hle
    have : (5/100 : ℚ) < qa - qb := by
      rcases abs_cases (qb - qa) with ⟨habs, -⟩ | ⟨habs, -⟩
      · linarith [habs ▸ hc]
      · linarith [habs ▸ hc]
    simp only [Bool.or_eq_true, decide_eq_true_eq]
    left
    linarith
  · rw [if_neg (by simpa using hc)] at hle
    simp only [sortKeyLE, decide_eq_true_eq] at hle
    have hgap : qa - qb ≤ 5/100 := by
      have := neg_abs_le (qb - qa)
      have habs := le_of_not_lt hc
      have : -(5/100 : ℚ) ≤ qb - qa := by
        have := neg_abs_le (qb - qa)
        linarith
      linarith
    have hdates : jsDate b.item.createdAt ≤ jsDate a.item.createdAt := by
      have : ((jsDate b.item.createdAt - jsDate a.item.createdAt : ℤ) : ℚ) ≤ 0 := hle
      have h2 : (jsDate b.item.createdAt - jsDate a.item.createdAt : ℤ) ≤ 0 := by
        exact_mod_cast this
      omega
    simp only [Bool.or_eq_true, Bool.and_eq_true, decide_eq_true_eq]
    right
    exact ⟨hgap, hdates⟩

/-- Witness for claim C3 at a concrete search with two close-similarity
items: the returned list satisfies the claimed adjacent-pair order. -/
theorem claim_C3_witness :
    List.Chain' (fun a b => claimOrder a b = true)
      (searchReceiptItemsBySemantic (fun q => q) exProvider
        [exItemBananas, exItemChips] "bananas" (1/2)) :=
  claim_C3_matcher_order (fun q => q) exProvider [exItemBananas, exItemChips]
    "bananas" (1/2) (fun _ hq => hq)

/-- Witness for claim C4 at a concrete search: every returned row passes the
`0.5` threshold, the embedding-less row is excluded, and the router's
product branch calls the Matcher at threshold `0.5`. -/
theorem claim_C4_witness :
    (∀ s ∈ searchReceiptItemsBySemantic (fun q => q) exProvider
        [exItemBananas, exItemNoEmbedding] "bananas" (1/2),
      jsGe s.similarity (JsNum.num (1/2)) = true) ∧
    (∀ s ∈ searchReceiptItemsBySemantic (fun q => q) exProvider
        [exItemBananas, exItemNoEmbedding] "bananas" (1/2),
      s.item.embedding ≠ none) ∧
    routeQuery (fun q => q) exProvider exDb productParsedQuery =
      RouteResult.productResults
        (searchReceiptItemsBySemantic (fun q => q) exProvider exDb.receiptItems
          "milk" (1/2)) := by
  obtain ⟨p1, p2, -, -, -⟩ := claim_C4_matcher_threshold (fun q => q) exProvider
    [exItemBananas, exItemNoEmbedding] "bananas" (1/2)
  obtain ⟨-, -, -, -, p5⟩ := claim_C4_matcher_threshold (fun q => q) exProvider
    [] "milk" (1/2)
  exact ⟨p1, p2 (by norm_num), p5 exDb productParsedQuery rfl rfl (by decide) rfl⟩

/-- Counterexample for claim C1 as stated: for the message "When did I last
buy milk?" and a parser that misclassifies it as `searchType = store` (the
case the claimed override must correct), the router performs a store search,
not a product search — there is no code-level override; the phrase guidance
lives only in the parser prompt. -/
theorem claim_C1_counterexample :
    (routeUserMessage storeParser (fun q => q) exProvider exDb
        whenDidIBuyMilk).isProductSearch = false := by
  decide

/-- Claim C1 (amended): the Query Router applies no phrase-level override;
it dispatches verbatim on the parser's descriptor.  A `semantic_search`
descriptor with a search term routes to the merchant/store search exactly
when the parser returned `searchType = store` — also for "when did I (last)
buy X" messages — and to the product search (`isLatest` then truncating to
the top result) otherwise. -/
theorem claim_C1_router_follows_descriptor
    (parseQuery : String → FinancialQuery) (sqrt : ℚ → ℚ)
    (provider : String → Except String (List ℚ)) (db : Database)
    (message : String) (searchTerm : String)
    (h1 : (parseQuery message).queryType = QueryType.semantic_search)
    (h2 : (parseQuery message).parameters.searchTerm = some searchTerm) :
    ((parseQuery message).parameters.searchType = some SearchType.store →
      routeUserMessage parseQuery sqrt provider db message =
        RouteResult.storeResults
          (truncateLatest (parseQuery message)
            (searchTransactionsBySemantic db.transactions searchTerm))) ∧
    ((parseQuery message).parameters.searchType ≠ some SearchType.store →
      routeUserMessage parseQuery sqrt provider db message =
        RouteResult.productResults
          (truncateLatest (parseQuery message)
            (searchReceiptItemsBySemantic sqrt provider db.receiptItems
              searchTerm (1/2)))) := by
  constructor
  · intro h3
    simp only [routeUserMessage, routeQuery, h1, h2]
    rw [if_pos h3]
  · intro h3
    simp only [routeUserMessage, routeQuery, h1, h2]
    rw [if_neg h3]

/-- Witness for the amended claim C1: the misclassifying parser's store
descriptor for "When did I last buy milk?" is dispatched as a store search. -/
theorem claim_C1_witness :
    routeUserMessage storeParser (fun q => q) exProvider exDb whenDidIBuyMilk =
      RouteResult.storeResults
        (truncateLatest storeParsedQuery
          (searchTransactionsBySemantic exDb.transactions "milk")) :=
  (claim_C1_router_follows_descriptor storeParser (fun q => q) exProvider exDb
    whenDidIBuyMilk "milk" rfl rfl).1 rfl

/-- Helper: the descending-date relation on transactions is transitive. -/
theorem dateDescTx_trans (a b c : Transaction) (hab : dateDescTx a b = true)
    (hbc : dateDescTx b c = true) : dateDescTx a c = true := by
  simp only [dateDescTx, decide_eq_true_eq] at *
  omega

/-- Helper: the descending-date relation on transactions is total. -/
theorem dateDescTx_total (a b : Transaction) :
    dateDescTx a b || dateDescTx b a := by
  simp only [dateDescTx, Bool.or_eq_true, decide_eq_true_eq]
  omega

/-- Claim C6 (amended): store/merchant search involves no embeddings: every
returned transaction's merchant contains the search term case-insensitively,
the result is in descending date order, and it is exactly the matching set
(as a permutation) whenever at most 20 transactions match — beyond that the
result is capped at 20 rows (claim C10). -/
theorem claim_C6_store_search
    (allTransactions : List Transaction) (searchTerm : String) :
    (∀ t ∈ searchTransactionsBySemantic allTransactions searchTerm,
        merchantMatches searchTerm t = true) ∧
    List.Pairwise (fun a b => dateDescTx a b = true)
      (searchTransactionsBySemantic allTransactions searchTerm) ∧
    ((allTransactions.filter fun t => merchantMatches searchTerm t).length ≤ 20 →
      (searchTransactionsBySemantic allTransactions searchTerm).Perm
        (allTransactions.filter fun t => merchantMatches searchTerm t)) := by
  refine ⟨?_, ?_, ?_⟩
  · intro t ht
    unfold searchTransactionsBySemantic at ht
    have hms := List.mem_of_mem_take ht
    rw [List.mem_mergeSort] at hms
    exact List.of_mem_filter hms
  · unfold searchTransactionsBySemantic
    exact List.Pairwise.sublist (List.take_sublist _ _)
      (List.sorted_mergeSort dateDescTx_trans dateDescTx_total _)
  · intro hlen
    unfold searchTransactionsBySemantic
    rw [List.take_of_length_le (by rw [List.length_mergeSort]; exact hlen)]
    exact List.mergeSort_perm _ _

/-- Counterexample for claim C6 as stated: with 21 transactions at the same
merchant all matching the term, the search returns only 20 of them, so the
result is not "exactly the transactions whose merchant contains the term". -/
theorem claim_C6_counterexample :
    (manyTx.filter fun t => merchantMatches "Costco" t).length = 21 ∧
      (searchTransactionsBySemantic manyTx "Costco").length = 20 := by
  constructor
  · decide
  · rw [searchTransactionsBySemantic, List.length_take, List.length_mergeSort]
    decide

/-- Witness for the amended claim C6 on a one-transaction database: the
single match is returned, merchant-matched and date-ordered. -/
theorem claim_C6_witness :
    (∀ t ∈ searchTransactionsBySemantic [exTx] "costco",
        merchantMatches "costco" t = true) ∧
      (searchTransactionsBySemantic [exTx] "costco").Perm
        ([exTx].filter fun t => merchantMatches "costco" t) := by
  obtain ⟨p1, -, p3⟩ := claim_C6_store_search [exTx] "costco"
  exact ⟨p1, p3 (by decide)⟩

/-- Helper: the ascending creation-time relation (nulls last) is transitive. -/
theorem createdAtAsc_trans (a b c : ReceiptItem)
    (hab : createdAtAsc a b = true) (hbc : createdAtAsc b c = true) :
    createdAtAsc a c = true := by
  unfold createdAtAsc at *
  rcases ha : a.createdAt with _ | x <;> rcases hb : b.createdAt with _ | y <;>
      rcases hc : c.createdAt with _ | z <;> simp_all
  omega

/-- Helper: the ascending creation-time relation is total. -/
theorem createdAtAsc_total (a b : ReceiptItem) :
    createdAtAsc a b || createdAtAsc b a := by
  unfold createdAtAsc
  rcases ha : a.createdAt with _ | x <;> rcases hb : b.createdAt with _ | y <;>
      simp_all
  omega

/-- Claim C7: reconstructing the receipt of transaction `X` returns exactly
line items referencing `X`, ordered by ascending creation time, and an
absent transaction id yields the user-facing NotFound message instead of an
exception. -/
theorem claim_C7_receipt_items (db : List ReceiptItem) (X : String) :
    (∀ i ∈ getReceiptItems db X, i.transactionId = X) ∧
    List.Pairwise (fun a b => createdAtAsc a b = true) (getReceiptItems db X) ∧
    (∀ (allItems : List ReceiptItem) (allTransactions : List Transaction)
        (searchTerm : String) (item : ReceiptItem),
      getTransaction allTransactions item.transactionId = none →
      reconstructLatestPurchase allItems allTransactions searchTerm item =
        Except.error (notFoundMessage searchTerm)) := by
  refine ⟨?_, ?_, ?_⟩
  · intro i hi
    unfold getReceiptItems at hi
    rw [List.mem_mergeSort] at hi
    simpa using List.of_mem_filter hi
  · exact List.sorted_mergeSort createdAtAsc_trans createdAtAsc_total _
  · intro allItems allTransactions searchTerm item htx
    simp only [reconstructLatestPurchase, htx]

/-- Witness for claim C7: the three-row example receipt belongs entirely to
transaction `t1`, and reconstruction against an empty transaction table
produces the NotFound message. -/
theorem claim_C7_witness :
    (∀ i ∈ getReceiptItems exReceiptRows "t1", i.transactionId = "t1") ∧
      reconstructLatestPurchase exReceiptRows [] "milk" exItemBananas =
        Except.error (notFoundMessage "milk") := by
  obtain ⟨p1, -, p3⟩ := claim_C7_receipt_items exReceiptRows "t1"
  exact ⟨p1, p3 exReceiptRows [] "milk" exItemBananas rfl⟩

set_option maxHeartbeats 1000000 in
/-- Helper: sums of a mapped amount agree across a permutation (stated once,
so the costly instance-path unification happens only here). -/
theorem sum_map_perm (f : ReceiptItem → ℚ) {l₁ l₂ : List ReceiptItem}
    (h : l₁.Perm l₂) : (l₁.map f).sum = (l₂.map f).sum :=
  (h.map f).sum_eq

/-- Claim C8: a successful reconstruction returns the receipt whose total is
the sum of the absolute values of all line-item amounts of that transaction
— computed from the line items alone, independent of the transaction's own
stored amount — with the items in creation order and the matched item
flagged via its id. -/
theorem claim_C8_receipt_total
    (allItems : List ReceiptItem) (allTransactions : List Transaction)
    (searchTerm : String) (item : ReceiptItem) (tx : Transaction)
    (htx : getTransaction allTransactions item.transactionId = some tx) :
    ∃ r, reconstructLatestPurchase allItems allTransactions searchTerm item =
        Except.ok r ∧
      r.total = ((allItems.filter fun i =>
        i.transactionId = item.transactionId).map
          fun i => mathAbs i.itemAmount).sum ∧
      r.items = getReceiptItems allItems item.transactionId ∧
      r.transaction = tx ∧ r.highlightedId = item.id := by
  have hperm : (getReceiptItems allItems item.transactionId).Perm
      (allItems.filter fun i => i.transactionId = item.transactionId) := by
    unfold getReceiptItems
    exact List.mergeSort_perm _ _
  simp only [reconstructLatestPurchase, htx]
  generalize hre : getReceiptItems allItems item.transactionId = re at hperm ⊢
  exact ⟨_, rfl, sum_map_perm (fun receiptItem => mathAbs receiptItem.itemAmount) hperm,
    rfl, rfl, rfl⟩

/-- Witness for claim C8 at the scenario of the specification: three line
items priced 4.99, 12.99 and 3.50 reconstruct to the total 21.48. -/
theorem claim_C8_witness :
    (∃ r, reconstructLatestPurchase exReceiptRows [exTx] "milk" exItemBananas =
        Except.ok r ∧
      r.total = ((exReceiptRows.filter fun i =>
        i.transactionId = exItemBananas.transactionId).map
          fun i => mathAbs i.itemAmount).sum ∧
      r.items = getReceiptItems exReceiptRows exItemBananas.transactionId ∧
      r.transaction = exTx ∧ r.highlightedId = exItemBananas.id) ∧
    ((exReceiptRows.filter fun i =>
        i.transactionId = exItemBananas.transactionId).map
          fun i => mathAbs i.itemAmount).sum = 2148/100 := by
  refine ⟨claim_C8_receipt_total exReceiptRows [exTx] "milk" exItemBananas exTx
    rfl, ?_⟩
  norm_num +decide [exReceiptRows, exItemBananas, List.filter_cons, mathAbs,
    abs_of_nonneg]

/-- Claim C10: store search caps its result at the 20 most recent matches:
at most 20 rows, precisely `min 20 (number of matches)` rows, every omitted
match is no more recent than any returned row, and the store-scoped
consumers (receipt items by store, latest receipt from store) only consider
transactions from that capped list. -/
theorem claim_C10_store_cap
    (allTransactions : List Transaction) (searchTerm : String)
    (allItems : List ReceiptItem) :
    ((searchTransactionsBySemantic allTransactions searchTerm).length ≤ 20) ∧
    ((searchTransactionsBySemantic allTransactions searchTerm).length =
      min 20 (allTransactions.filter fun t => merchantMatches searchTerm t).length) ∧
    (∀ t ∈ allTransactions.filter fun t => merchantMatches searchTerm t,
      t ∉ searchTransactionsBySemantic allTransactions searchTerm →
      ∀ u ∈ searchTransactionsBySemantic allTransactions searchTerm,
        t.date ≤ u.date) ∧
    (∀ i ∈ searchReceiptItemsByStore allItems allTransactions searchTerm,
      ∃ t ∈ searchTransactionsBySemantic allTransactions searchTerm,
        i.transactionId = t.id) ∧
    (getLatestReceiptFromStore allItems allTransactions searchTerm = [] ∨
      ∃ t, (searchTransactionsBySemantic allTransactions searchTerm).head? = some t ∧
        getLatestReceiptFromStore allItems allTransactions searchTerm =
          getReceiptItems allItems t.id) := by
  refine ⟨?_, ?_, ?_, ?_, ?_⟩
  · unfold searchTransactionsBySemantic
    rw [List.length_take]
    exact min_le_left _ _
  · unfold searchTransactionsBySemantic
    rw [List.length_take, List.length_mergeSort]
  · intro t htf htn u hu
    unfold searchTransactionsBySemantic at htn hu
    have hpair : List.Pairwise (fun a b => dateDescTx a b = true)
        ((allTransactions.filter fun t => merchantMatches searchTerm t).mergeSort
          dateDescTx) :=
      List.sorted_mergeSort dateDescTx_trans dateDescTx_total _
    have hsplit := List.take_append_drop 20
      ((allTransactions.filter fun t => merchantMatches searchTerm t).mergeSort
        dateDescTx)
    rw [← hsplit] at hpair
    rw [List.pairwise_append] at hpair
    have htm : t ∈ (allTransactions.filter fun t =>
        merchantMatches searchTerm t).mergeSort dateDescTx := by
      rw [List.mem_mergeSort]
      exact htf
    rw [← hsplit, List.mem_append] at htm
    rcases htm with htm | htm
    · exact absurd htm htn
    · have := hpair.2.2 u hu t htm
      simpa [dateDescTx] using this
  · intro i hi
    simp only [searchReceiptItemsByStore] at hi
    split at hi
    · exact absurd hi (List.not_mem_nil i)
    · rw [List.mem_mergeSort] at hi
      have hpass := List.of_mem_filter hi
      rw [List.any_eq_true] at hpass
      rcases hpass with ⟨t, ht, hid⟩
      refine ⟨t, ht, ?_⟩
      have : t.id = i.transactionId := by simpa using hid
      exact this.symm
  · unfold getLatestReceiptFromStore
    rcases h : searchTransactionsBySemantic allTransactions searchTerm with _ | ⟨t, rest⟩
    · left; rfl
    · right
      exact ⟨t, rfl, rfl⟩

/-- Witness for claim C10 on the 21-transaction example: the search returns
20 of the 21 matches, and the omitted oldest transaction is no more recent
than any returned one. -/
theorem claim_C10_witness :
    (searchTransactionsBySemantic manyTx "Costco").length ≤ 20 ∧
      (searchTransactionsBySemantic manyTx "Costco").length =
        min 20 (manyTx.filter fun t => merchantMatches "Costco" t).length := by
  obtain ⟨p1, p2, -, -, -⟩ := claim_C10_store_cap manyTx "Costco" []
  exact ⟨p1, p2⟩

/-- Claim C2: the three-tier account-name resolution policy — a unique exact
case-insensitive match wins; otherwise a unique substring match wins;
otherwise embedding similarity at threshold `0.65` decides, accepting a
unique semantic hit or a top hit leading the runner-up by at least `0.15`;
and (completeness) resolution never silently picks one account in any other
situation: every resolved outcome arises from one of those four rules, all
other multi-candidate situations surface as ambiguous or not-found. -/
theorem claim_C2_account_resolution
    (sqrt : ℚ → ℚ) (provider : String → Except String (List ℚ))
    (accounts : List Account) (accountName : String) :
    (∀ a, (accounts.filter fun account =>
        lowerStr account.name = lowerStr accountName) = [a] →
      resolveAccount sqrt provider accounts accountName =
        AccountResolution.resolved a) ∧
    ((accounts.filter fun account =>
        lowerStr account.name = lowerStr accountName) = [] →
      ∀ c, (accounts.filter fun account =>
        containsList (lowerStr account.name) (lowerStr accountName)) = [c] →
      resolveAccount sqrt provider accounts accountName =
        AccountResolution.resolved c) ∧
    ((accounts.filter fun account =>
        lowerStr account.name = lowerStr accountName) = [] →
      (accounts.filter fun account =>
        containsList (lowerStr account.name) (lowerStr accountName)).length ≠ 1 →
      ∀ s0 s1 rest,
        searchAccountsBySemantic sqrt provider accounts
          accountName.toLower (65/100) = s0 :: s1 :: rest →
        jsGe (jsSub s0.similarity s1.similarity) (JsNum.num (15/100)) = true →
        resolveAccount sqrt provider accounts accountName =
          AccountResolution.resolved s0.account) ∧
    (∀ a, resolveAccount sqrt provider accounts accountName =
        AccountResolution.resolved a →
      (accounts.filter fun account =>
        lowerStr account.name = lowerStr accountName) = [a] ∨
      ((accounts.filter fun account =>
          lowerStr account.name = lowerStr accountName) = [] ∧
        (accounts.filter fun account =>
          containsList (lowerStr account.name) (lowerStr accountName)) = [a]) ∨
      ((accounts.filter fun account =>
          lowerStr account.name = lowerStr accountName) = [] ∧
        (accounts.filter fun account =>
          containsList (lowerStr account.name) (lowerStr accountName)).length ≠ 1 ∧
        ∃ s, searchAccountsBySemantic sqrt provider accounts
            accountName.toLower (65/100) = [s] ∧ s.account = a) ∨
      ((accounts.filter fun account =>
          lowerStr account.name = lowerStr accountName) = [] ∧
        (accounts.filter fun account =>
          containsList (lowerStr account.name) (lowerStr accountName)).length ≠ 1 ∧
        ∃ s0 s1 rest, searchAccountsBySemantic sqrt provider accounts
            accountName.toLower (65/100) = s0 :: s1 :: rest ∧
          jsGe (jsSub s0.similarity s1.similarity) (JsNum.num (15/100)) = true ∧
          s0.account = a)) := by
  refine ⟨?_, ?_, ?_, ?_⟩
  · intro a hE
    unfold resolveAccount resolveAccountMatches
    rw [hE]
    simp
  · intro hE c hC
    unfold resolveAccount resolveAccountMatches
    rw [hE, hC]
    simp
  · intro hE hC s0 s1 rest hS hGe
    unfold resolveAccount resolveAccountMatches
    rw [hE, hS]
    simp only [List.length_nil, lt_self_iff_false, if_false, hC, ite_false, hGe, if_true]
  · intro a ha
    have hM : resolveAccountMatches sqrt provider accounts accountName = [a] := by
      unfold resolveAccount at ha
      rcases h : resolveAccountMatches sqrt provider accounts accountName with
        _ | ⟨x, _ | ⟨y, ys⟩⟩ <;> rw [h] at ha
      · exact absurd ha (by simp)
      · have hxa : x = a := by simpa using ha
        rw [hxa]
      · exact absurd ha (by simp)
    unfold resolveAccountMatches at hM
    by_cases hE : 0 < (accounts.filter fun account =>
        lowerStr account.name = lowerStr accountName).length
    · rw [if_pos hE] at hM
      left
      exact hM
    · rw [if_neg hE] at hM
      have hEnil : (accounts.filter fun account =>
          lowerStr account.name = lowerStr accountName) = [] := by
        rcases h : accounts.filter fun account =>
            lowerStr account.name = lowerStr accountName with _ | ⟨x, xs⟩
        · exact h
        · rw [h] at hE
          exact absurd (by simp) hE
      by_cases hC : (accounts.filter fun account =>
          containsList (lowerStr account.name) (lowerStr accountName)).length = 1
      · rw [if_pos hC] at hM
        right; left
        exact ⟨hEnil, hM⟩
      · rw [if_neg hC] at hM
        rcases hS : searchAccountsBySemantic sqrt provider accounts
            accountName.toLower (65/100) with _ | ⟨s0, _ | ⟨s1, rest⟩⟩ <;>
          rw [hS] at hM
        · have hM2 : (accounts.filter fun account =>
              containsList (lowerStr account.name) (lowerStr accountName)) = [a] := hM
          exact absurd (by rw [hM2]; rfl) hC
        · have hM2 : [s0.account] = [a] := hM
          injection hM2 with h1 _
          right; right; left
          exact ⟨hEnil, hC, s0, rfl, h1⟩
        · have hM2 : (if jsGe (jsSub s0.similarity s1.similarity)
                (JsNum.num (15/100)) = true then [s0.account]
              else if 0 < (accounts.filter fun account =>
                  containsList (lowerStr account.name) (lowerStr accountName)).length
                then accounts.filter fun account =>
                  containsList (lowerStr account.name) (lowerStr accountName)
                else ((s0 :: s1 :: rest).take 3).map fun s => s.account) = [a] := hM
          by_cases hGe : jsGe (jsSub s0.similarity s1.similarity)
              (JsNum.num (15/100)) = true
          · rw [if_pos hGe] at hM2
            injection hM2 with h1 _
            right; right; right
            exact ⟨hEnil, hC, s0, s1, rest, rfl, hGe, h1⟩
          · rw [if_neg hGe] at hM2
            by_cases hC0 : 0 < (accounts.filter fun account =>
                containsList (lowerStr account.name) (lowerStr accountName)).length
            · rw [if_pos hC0] at hM2
              exact absurd (by rw [hM2]; rfl) hC
            · rw [if_neg hC0] at hM2
              have hlen := congrArg List.length hM2
              simp at hlen

/-- Witness for claim C2: a unique substring match resolves (tier b), and
the disambiguation scenario of the specification — "Angelica" against two
account names that both contain it, with no exact match and semantically
tied embeddings — surfaces as ambiguous with both candidates listed. -/
theorem claim_C2_witness :
    resolveAccount (fun q => q) exProvider [exVacationAccount] "vacation" =
      AccountResolution.resolved exVacationAccount ∧
    resolveAccount (fun q => q) exProvider exAccounts "Angelica" =
      AccountResolution.ambiguous exAccounts := by
  constructor
  · exact (claim_C2_account_resolution (fun q => q) exProvider
      [exVacationAccount] "vacation").2.1 (by decide) exVacationAccount (by decide)
  · have hsem : searchAccountsBySemantic (fun q => q) exProvider exAccounts
        "Angelica".toLower (65/100) =
        [ { account := exAccounts[0], similarity := JsNum.num 1 },
          { account := exAccounts[1], similarity := JsNum.num 1 } ] := by
      unfold searchAccountsBySemantic generateEmbedding exProvider
      norm_num [exAccounts, accountSimilarity, cosineSimilarity, dotSum, jsDiv,
        jsGe, List.filter_cons, List.mergeSort, List.splitInTwo, List.merge,
        accCompareLE, accCompare, jsSub, sortKeyLE]
    unfold resolveAccount resolveAccountMatches
    rw [hsem]
    norm_num +decide [exAccounts, List.filter_cons, jsSub, jsGe, List.take]
